import Mathlib

/-!
Verification development for the Steam market history tracker.

The repository has two phases:

* `download_history.py` — `SteamHistoryDownloader` with the retrying fetcher
  `_fetch_batch_with_retries`, the full-download loop `_run_full_download`
  and the incremental sync loop `_run_sync`.
* `process_data.py` — `DataProcessor` with the HTML row extractor
  `_parse_html_results` and the two-pass year inference
  `_add_years_to_dates`.

Each Python function is shallowly embedded below as an executable Lean
definition; network responses, the shared stop event and the file system are
abstracted as explicit inputs (per-attempt observations, per-offset fetch
results) and explicit outputs (lists of page writes and state-file writes).
-/

namespace SteamTracker

/-- One fetched API response (`download_history.py` page document):
`total_count` and the opaque `results_html` markup. The `results` array is
used by the source only for a progress log line and is omitted. -/
structure PageDoc where
  total_count : Nat
  results_html : String
deriving DecidableEq, Repr

/-! ### `_fetch_batch_with_retries` (download_history.py lines 59-89)

Each loop iteration either observes the stop event as set (the source raises
`StopException`), or issues one HTTP attempt whose outcome we classify exactly
as the source's control flow does:

* `success d` — status 200, `success` flag truthy, no `Login` marker: the
  function returns `d` (line 77);
* `loginMarker` — status 200 with `Login` in `results_html`: the source raises
  `RequestException`, which its own `except` clause catches (line 84), so the
  iteration falls through to the backoff wait;
* `failStatus c` — any HTTP status that does not return: 200 with a falsy
  `success` flag falls through to line 81, 401/403 raises `RequestException`
  which is caught at line 84, and every other status falls through to
  line 81; in all of these the iteration waits `backoff * 2 ^ i` and retries;
* `transportError` — a transport-level `RequestException` (timeout, reset),
  caught at line 84, same backoff wait.

After the `for` loop the source raises `ConnectionError` (line 89). -/
inductive AttemptObs where
  | stopped
  | success (d : PageDoc)
  | loginMarker
  | failStatus (code : Nat)
  | transportError
deriving DecidableEq, Repr

/-- Result of one `_fetch_batch_with_retries` call. -/
inductive FetchResultKind where
  | got (d : PageDoc)
  | stopRaised
  | retriesExhausted
deriving DecidableEq, Repr

/-- Observable trace of one `_fetch_batch_with_retries` call: the terminal
result, the number of HTTP attempts issued, and the list of backoff waits
performed (in seconds, in order). -/
structure FetchRunResult where
  result : FetchResultKind
  attempts : Nat
  waits : List Nat
deriving DecidableEq, Repr

/-- The `for i in range(retries)` loop of `_fetch_batch_with_retries`,
starting at iteration `i`. `obs i` is what iteration `i` observes. -/
def fetchLoop (retries backoff : Nat) (obs : Nat → AttemptObs) (i : Nat) :
    FetchRunResult :=
  if i < retries then
    match obs i with
    | .stopped => ⟨.stopRaised, 0, []⟩
    | .success d => ⟨.got d, 1, []⟩
    | .loginMarker =>
      let r := fetchLoop retries backoff obs (i + 1)
      ⟨r.result, r.attempts + 1, backoff * 2 ^ i :: r.waits⟩
    | .failStatus _ =>
      let r := fetchLoop retries backoff obs (i + 1)
      ⟨r.result, r.attempts + 1, backoff * 2 ^ i :: r.waits⟩
    | .transportError =>
      let r := fetchLoop retries backoff obs (i + 1)
      ⟨r.result, r.attempts + 1, backoff * 2 ^ i :: r.waits⟩
  else ⟨.retriesExhausted, 0, []⟩
termination_by retries - i

/-- `_fetch_batch_with_retries` as a whole: run the loop from iteration 0.
`retries` is `config["max_retries"]` (default 5), `backoff` is
`config["initial_backoff_seconds"]` (default 5). -/
def fetchRun (retries backoff : Nat) (obs : Nat → AttemptObs) : FetchRunResult :=
  fetchLoop retries backoff obs 0

/-! ### `_run_full_download` (download_history.py lines 91-137) -/

/-- Outcome of one `_fetch_batch_with_retries` call as seen by its caller:
a page document, or a propagating `StopException`, or a propagating
`ConnectionError` after exhausted retries. -/
inductive FetchR where
  | ok (d : PageDoc)
  | stopExn
  | connExn
deriving DecidableEq, Repr

/-- Terminal outcome of `_run_full_download`. -/
inductive FullOutcome where
  /-- the `while` loop exited with `start >= total_count` -/
  | done
  /-- the probe reported `total_count == 0` and the function returned early -/
  | emptyTotal
  /-- the stop event was observed at the top of an iteration (`break`) -/
  | paused
  /-- a `_fetch_batch_with_retries` call raised (`StopException` or
  `ConnectionError`), unwinding the whole function -/
  | fetchRaised
deriving DecidableEq, Repr

/-- Observable trace of a `_run_full_download` call: outcome, page-file
writes `(offset, document)` in order, and state-file writes
`(start, initial_download_complete)` in order. -/
structure FullResult where
  outcome : FullOutcome
  pages : List (Nat × PageDoc)
  states : List (Nat × Bool)
deriving DecidableEq, Repr

/-- The `while start < total_count` loop of `_run_full_download`.
`stop off` tells whether the stop event is observed set at the top of the
iteration whose offset is `off`; `fetch off` is the result of the
`_fetch_batch_with_retries(start=off, count=100)` call. Each successful
iteration writes the page file and then the state file with
`{"start": off + 100, "initial_download_complete": False}` (lines 128-131);
a natural loop exit writes `{"start": start, "initial_download_complete":
True}` (lines 134-137). -/
def fullLoop (total : Nat) (stop : Nat → Bool) (fetch : Nat → FetchR)
    (start : Nat) : FullResult :=
  if _h : start < total then
    if stop start then ⟨.paused, [], []⟩
    else
      match fetch start with
      | .stopExn => ⟨.fetchRaised, [], []⟩
      | .connExn => ⟨.fetchRaised, [], []⟩
      | .ok d =>
        let r := fullLoop total stop fetch (start + 100)
        ⟨r.outcome, (start, d) :: r.pages, (start + 100, false) :: r.states⟩
  else ⟨.done, [], [(start, true)]⟩
termination_by total - start
decreasing_by omega

/-- `_run_full_download` as a whole. `probe` is the initial
`_fetch_batch_with_retries(start=0, count=1)` call; `readStart` is the
`start` value loaded from `state.json` (`none` when the file is missing or
unreadable, in which case the source uses 0). -/
def runFull (probe : FetchR) (readStart : Option Nat) (stop : Nat → Bool)
    (fetch : Nat → FetchR) : FullResult :=
  match probe with
  | .stopExn => ⟨.fetchRaised, [], []⟩
  | .connExn => ⟨.fetchRaised, [], []⟩
  | .ok d =>
    if d.total_count = 0 then ⟨.emptyTotal, [], []⟩
    else fullLoop d.total_count stop fetch (readStart.getD 0)

/-! ### `_run_sync` (download_history.py lines 139-177) -/

/-- Terminal outcome of `_run_sync`. -/
inductive SyncOutcome where
  /-- `new_items_count <= 0`: already up to date, early return (line 156) -/
  | upToDate
  /-- the `for` loop over `pages_to_sync` pages finished -/
  | doneSync
  /-- the stop event was observed at the top of an iteration (`break`) -/
  | pausedSync
  /-- a `_fetch_batch_with_retries` call raised, unwinding the function -/
  | fetchRaisedSync
deriving DecidableEq, Repr

/-- Observable trace of a `_run_sync` call. `states` records state-file
writes: `_run_sync` performs none in the source, so the field is built
empty at every step of the embedding. -/
structure SyncResult where
  outcome : SyncOutcome
  pages : List (Nat × PageDoc)
  states : List (Nat × Bool)
deriving DecidableEq, Repr

/-- The `for i in range(pages_to_sync)` loop of `_run_sync` (lines 164-175):
each iteration checks the stop event, fetches offset `i * 100`, and writes
the page file; no state-file write occurs. -/
def syncLoop (pagesToSync : Nat) (stop : Nat → Bool) (fetch : Nat → FetchR)
    (i : Nat) : SyncResult :=
  if i < pagesToSync then
    if stop i then ⟨.pausedSync, [], []⟩
    else
      match fetch (i * 100) with
      | .stopExn => ⟨.fetchRaisedSync, [], []⟩
      | .connExn => ⟨.fetchRaisedSync, [], []⟩
      | .ok d =>
        let r := syncLoop pagesToSync stop fetch (i + 1)
        ⟨r.outcome, (i * 100, d) :: r.pages, r.states⟩
  else ⟨.doneSync, [], []⟩
termination_by pagesToSync - i
decreasing_by omega

/-- `_run_sync` as a whole. `localCount` is `_get_last_local_total_count()`;
`probe` is the 1-item probe fetch. `new_items_count = live - local` is a
Python `int` subtraction; its `<= 0` test is equivalent to
`live ≤ localCount` on naturals, and when positive,
`math.ceil(new_items_count / 100)` equals `(live - localCount + 99) / 100`
in natural division. -/
def runSync (localCount : Nat) (probe : FetchR) (stop : Nat → Bool)
    (fetch : Nat → FetchR) : SyncResult :=
  match probe with
  | .stopExn => ⟨.fetchRaisedSync, [], []⟩
  | .connExn => ⟨.fetchRaisedSync, [], []⟩
  | .ok d =>
    if d.total_count ≤ localCount then ⟨.upToDate, [], []⟩
    else syncLoop ((d.total_count - localCount + 99) / 100) stop fetch 0

/-! ### `process_data.py`: string helpers

Python's `str.split()` (no argument) splits on runs of whitespace and drops
empty pieces; `str.split(' ')` splits at every single space and keeps empty
pieces, which is what Lean's `String.splitOn " "` does. `str.strip()` drops
leading and trailing whitespace. -/

/-- Python whitespace (`str.isspace` characters relevant to `split`/`strip`). -/
def pyIsSpace (c : Char) : Bool :=
  c = ' ' || c = '\t' || c = '\n' || c = '\r' || c = '\x0b' || c = '\x0c'

/-- Split a character list at every character satisfying `p`, keeping empty
pieces (so the result always has one more piece than there are separators). -/
def splitPred (p : Char → Bool) : List Char → List (List Char)
  | [] => [[]]
  | c :: cs =>
    let r := splitPred p cs
    if p c then [] :: r
    else
      match r with
      | [] => [[c]]
      | h :: t => (c :: h) :: t

/-- Python `s.split()`: whitespace-separated tokens, empties dropped. -/
def pySplit (s : String) : List String :=
  ((splitPred pyIsSpace s.data).filter (fun t => t ≠ [])).map String.mk

/-- Python `s.split(' ')`: split at each single space, empties kept. -/
def pySplitSpace (s : String) : List String :=
  (splitPred (fun c => c = ' ') s.data).map String.mk

/-- Python `s.strip()`. -/
def pyStrip (s : String) : String :=
  String.mk (((s.data.dropWhile pyIsSpace).reverse.dropWhile pyIsSpace).reverse)

/-! ### `_parse_html_results` (process_data.py lines 27-66)

BeautifulSoup's lenient HTML parsing is external; one
`div.market_listing_row` element is abstracted as the texts of the
sub-elements the source looks up: `find` results become `Option String`
(`none` when the element is missing) and the `find_all` of
`market_listing_listed_date` divs becomes a list of texts. -/

/-- One `market_listing_row` element as the source observes it. -/
structure HtmlRow where
  /-- `.text` of the `market_listing_gainorloss` div, if found -/
  gainLossText : Option String
  /-- `.text` of the `market_listing_item_name` span, if found -/
  itemNameText : Option String
  /-- `.text` of the `market_listing_price` span, if found -/
  priceText : Option String
  /-- `.text` of each `market_listing_listed_date` div, in document order -/
  dateTexts : List String
deriving DecidableEq, Repr

/-- A parsed transaction row (the dict built at process_data.py lines 58-64).
Prices are modelled as exact rationals. -/
structure RawTransactionRow where
  actedOnDate : String
  listedOnDate : String
  itemName : String
  type : String
  price : ℚ
deriving DecidableEq, Repr

/-- `re.sub(r'[^\d.]', '', s)`: keep only ASCII digits and dots. -/
def cleanPrice (s : String) : List Char :=
  s.data.filter (fun c => c.isDigit || c = '.')

/-- Value of a run of ASCII digit characters, most significant first. -/
def digitsVal (l : List Char) : Nat :=
  l.foldl (fun a c => 10 * a + (c.toNat - 48)) 0

/-- Python `float(s)` restricted to strings of digits and dots (the output of
`cleanPrice`): it succeeds exactly when the string contains at least one
digit and at most one dot, and then denotes `intpart.fracpart` exactly. -/
def parsePyFloat (s : List Char) : Option ℚ :=
  if (s.any (fun c => c.isDigit)) ∧ s.count '.' ≤ 1 then
    some ((digitsVal (s.takeWhile (fun c => c ≠ '.')) : ℚ) +
      (digitsVal ((s.dropWhile (fun c => c ≠ '.')).drop 1) : ℚ) /
        10 ^ ((s.dropWhile (fun c => c ≠ '.')).drop 1).length)
  else none

/-- The per-row extraction of `_parse_html_results` (lines 38-64). -/
def parseRow (r : HtmlRow) : RawTransactionRow :=
  let actionChar := match r.gainLossText with
    | some t => pyStrip t
    | none => "?"
  let transactionType := if actionChar = "+" then "Purchase" else "Sale"
  let itemName := match r.itemNameText with
    | some t => pyStrip t
    | none => "N/A"
  let priceStr := match r.priceText with
    | some t => pyStrip t
    | none => "0.0"
  let price := (parsePyFloat (cleanPrice priceStr)).getD 0
  let actedOnDate := match r.dateTexts.get? 0 with
    | some t => pyStrip t
    | none => "N/A"
  let listedOnDate := match r.dateTexts.get? 1 with
    | some t => pyStrip t
    | none => "N/A"
  ⟨actedOnDate, listedOnDate, itemName, transactionType, price⟩

/-- `_parse_html_results` over all rows found in the markup. -/
def parseRows (rows : List HtmlRow) : List RawTransactionRow :=
  rows.map parseRow

/-! ### `_add_years_to_dates` (process_data.py lines 68-131)

Python raises `IndexError` when `split(' ')[1]` is taken of a string with no
space; this is reachable (a date text whose only whitespace is a tab passes
the `len(s.split()) < 2` guard but has no second `split(' ')` element), so
the embedding is written in an explicit crash monad. -/

/-- A Python computation that either returns or raises `IndexError`. -/
inductive Crash (α : Type) where
  | ok (a : α)
  | err
deriving DecidableEq, Repr

/-- `month_map` (process_data.py lines 76-79). -/
def monthMap (s : String) : Option Nat :=
  [("Jan", 1), ("Feb", 2), ("Mar", 3), ("Apr", 4), ("May", 5), ("Jun", 6),
   ("Jul", 7), ("Aug", 8), ("Sep", 9), ("Oct", 10), ("Nov", 11),
   ("Dec", 12)].lookup s

/-- Month extraction of the first pass (lines 83-94): the guard
`not s or s == "N/A" or len(s.split()) < 2` yields no month; otherwise
`month_map.get(s.split(' ')[1])`, where a missing index raises. -/
def actedMonthOf (s : String) : Crash (Option Nat) :=
  if s = "" ∨ s = "N/A" ∨ (pySplit s).length < 2 then .ok none
  else
    match (pySplitSpace s).get? 1 with
    | none => .err
    | some tok => .ok (monthMap tok)

/-- One iteration of the first pass (lines 82-100) on the state
`(current_acted_on_year, last_acted_on_month)`: an unparsed date leaves the
state unchanged and records no year; a parsed month `m` decrements the year
when `m > last_acted_on_month`, records the (possibly decremented) year and
sets the last month to `m`. -/
def pass1Step (st : Int × Nat) (s : String) : Crash ((Int × Nat) × Option Int) :=
  match actedMonthOf s with
  | .err => .err
  | .ok none => .ok (st, none)
  | .ok (some m) =>
    let y := if st.2 < m then st.1 - 1 else st.1
    .ok ((y, m), some y)

/-- The first pass over the whole transaction list, threading the state and
collecting each row's `inferred_acted_on_year`. -/
def pass1Go (st : Int × Nat) : List String → Crash (List (Option Int))
  | [] => .ok []
  | s :: rest =>
    match pass1Step st s with
    | .err => .err
    | .ok (st', y) =>
      match pass1Go st' rest with
      | .err => .err
      | .ok ys => .ok (y :: ys)

/-- The first pass of `_add_years_to_dates`, started from
`current_acted_on_year = currentYear` (the present calendar year) and
`last_acted_on_month = 13` (lines 73-74). -/
def pass1 (currentYear : Int) (dates : List String) : Crash (List (Option Int)) :=
  pass1Go (currentYear, 13) dates

/-- A finalized row (the dict shape after the second pass, columns of the
output artifact). -/
structure FinalRow where
  soldPurchasedDate : String
  listedDate : String
  itemName : String
  type : String
  price : ℚ
deriving DecidableEq, Repr

/-- One iteration of the second pass (lines 103-129) on a row and its
inferred acted-on year. With no inferred year both output dates stay raw;
with year `y` the sold date gets `", y"` appended, and the listed date gets
a year exactly when the guard at line 115 holds and both month lookups at
lines 117-118 succeed, decremented when the listed month exceeds the
acted-on month. -/
def pass2Row (r : RawTransactionRow) (yOpt : Option Int) : Crash FinalRow :=
  match yOpt with
  | none => .ok ⟨r.actedOnDate, r.listedOnDate, r.itemName, r.type, r.price⟩
  | some y =>
    let sold := r.actedOnDate ++ ", " ++ toString y
    if r.listedOnDate ≠ "N/A" ∧ 1 < (pySplit r.actedOnDate).length ∧
        1 < (pySplit r.listedOnDate).length then
      match (pySplitSpace r.actedOnDate).get? 1,
          (pySplitSpace r.listedOnDate).get? 1 with
      | some ta, some tl =>
        match monthMap ta, monthMap tl with
        | some am, some lm =>
          let ly := if am < lm then y - 1 else y
          .ok ⟨sold, r.listedOnDate ++ ", " ++ toString ly, r.itemName,
            r.type, r.price⟩
        | _, _ => .ok ⟨sold, r.listedOnDate, r.itemName, r.type, r.price⟩
      | _, _ => .err
    else .ok ⟨sold, r.listedOnDate, r.itemName, r.type, r.price⟩

/-- The second pass over all rows paired with their inferred years. -/
def pass2All : List (RawTransactionRow × Option Int) → Crash (List FinalRow)
  | [] => .ok []
  | (r, y) :: rest =>
    match pass2Row r y with
    | .err => .err
    | .ok fr =>
      match pass2All rest with
      | .err => .err
      | .ok frs => .ok (fr :: frs)

/-- `_add_years_to_dates` as a whole: the first pass over the acted-on
dates, then the second pass over each row with its inferred year. -/
def addYears (currentYear : Int) (rows : List RawTransactionRow) :
    Crash (List FinalRow) :=
  match pass1 currentYear (rows.map (fun r => r.actedOnDate)) with
  | .err => .err
  | .ok ys => pass2All (rows.zip ys)

/-! ### Page filenames (download_history.py lines 121 and 172)

`filename = f"transactions_{str(start).zfill(6)}.json"`. `str(n)` is the
decimal representation of `n`, most significant digit first, and `zfill(6)`
left-pads with `'0'` up to width 6 (strings already at least 6 characters
long are returned unchanged). -/

/-- The character of a decimal digit. -/
def digitChar (d : Nat) : Char :=
  Char.ofNat (48 + d)

/-- Decimal digits of `n`, least significant first, with explicit fuel so
the definition is structurally recursive; `decDigitsLSB` instantiates the
fuel sufficiently. -/
def digitsFuel : Nat → Nat → List Nat
  | 0, _ => []
  | fuel + 1, n => if n = 0 then [] else n % 10 :: digitsFuel fuel (n / 10)

/-- Decimal digits of `n`, least significant first (empty for 0). -/
def decDigitsLSB (n : Nat) : List Nat :=
  digitsFuel n n

/-- Decimal digits of `n`, most significant first; `0` is written `[0]`,
matching `str(0) = "0"`. -/
def decDigitsMSB (n : Nat) : List Nat :=
  if n = 0 then [0] else (decDigitsLSB n).reverse

/-- Python `str(n)` for a natural number. -/
def pyStrNat (n : Nat) : String :=
  String.mk ((decDigitsMSB n).map digitChar)

/-- Python `s.zfill(w)` for an unsigned string. -/
def zfill (w : Nat) (s : String) : String :=
  String.mk (List.replicate (w - s.data.length) '0' ++ s.data)

/-- `f"transactions_{str(offset).zfill(6)}.json"`. -/
def pageFilename (offset : Nat) : String :=
  "transactions_" ++ zfill 6 (pyStrNat offset) ++ ".json"

/-! ## Theorems -/

/-! ### The retrying fetcher -/

/-- An attempt outcome the source's loop treats as retryable in the sense of
the spec: HTTP 429 or a 5xx status, or a transport-level error. -/
def RetryableObs (o : AttemptObs) : Prop :=
  (∃ c, o = .failStatus c ∧ (c = 429 ∨ (500 ≤ c ∧ c ≤ 599))) ∨
    o = .transportError

/-- An attempt outcome on which the loop iteration neither returns nor
raises `StopException`: every such iteration ends in a backoff wait. -/
def NonReturningObs (o : AttemptObs) : Prop :=
  o ≠ .stopped ∧ ∀ d, o ≠ .success d

theorem RetryableObs.nonReturning {o : AttemptObs} (h : RetryableObs o) :
    NonReturningObs o := by
  rcases h with ⟨c, rfl, _⟩ | rfl
  · exact ⟨by simp, by simp⟩
  · exact ⟨by simp, by simp⟩

/-- When every remaining iteration observes a non-returning outcome, the
loop performs all `retries - i` remaining attempts, waits
`backoff * 2 ^ j` after attempt `j`, and ends with `ConnectionError`. -/
theorem fetchLoop_nonreturning (retries backoff : Nat) (obs : Nat → AttemptObs) :
    ∀ n i, retries - i = n → (∀ j, i ≤ j → j < retries → NonReturningObs (obs j)) →
      fetchLoop retries backoff obs i =
        ⟨.retriesExhausted, retries - i,
          (List.range' i (retries - i)).map (fun j => backoff * 2 ^ j)⟩ := by
  intro n
  induction n with
  | zero =>
    intro i hi _
    rw [fetchLoop]
    have hni : ¬ i < retries := by omega
    simp [hni, hi]
  | succ n ih =>
    intro i hi h
    have hlt : i < retries := by omega
    have hobs := h i le_rfl hlt
    have hrec := ih (i + 1) (by omega)
      (fun j hj hj' => h j (by omega) hj')
    rw [fetchLoop, if_pos hlt]
    rcases hob : obs i with _ | d | _ | c | _
    · exact absurd hob hobs.1
    · exact absurd hob (hobs.2 d)
    all_goals
      simp only [hrec, FetchRunResult.mk.injEq]
      refine ⟨trivial, by omega, ?_⟩
      rw [show retries - (i + 1) = n from by omega,
        show retries - i = n + 1 from by omega, List.range'_succ]
      simp

/-- Claim C5: when every attempt fails with a retryable outcome (HTTP
429/5xx or a transport error), `_fetch_batch_with_retries` makes exactly
`max_retries` attempts, attempt `i` (from 0) is followed by a backoff wait
of `initial_backoff_seconds * 2 ^ i`, and the call then raises
`ConnectionError` (retries exhausted). -/
theorem fetch_retries_exhausted (retries backoff : Nat) (obs : Nat → AttemptObs)
    (h : ∀ j, j < retries → RetryableObs (obs j)) :
    fetchRun retries backoff obs =
      ⟨.retriesExhausted, retries,
        (List.range retries).map (fun i => backoff * 2 ^ i)⟩ := by
  have := fetchLoop_nonreturning retries backoff obs (retries - 0) 0 rfl
    (fun j _ hj' => (h j hj').nonReturning)
  simpa [fetchRun, List.range_eq_range'] using this

/-- Witness for C5: `max_retries = 3`, `initial_backoff_seconds = 1` and a
fetcher that always answers HTTP 500 give 3 attempts, waits `[1, 2, 4]`,
and exhausted retries. -/
theorem fetch_retries_exhausted_witness :
    fetchRun 3 1 (fun _ => .failStatus 500) =
      ⟨.retriesExhausted, 3, [1, 2, 4]⟩ := by
  rw [fetch_retries_exhausted 3 1 (fun _ => .failStatus 500)
    (fun j _ => Or.inl ⟨500, rfl, Or.inr ⟨by norm_num, by norm_num⟩⟩)]
  rfl

/-- Counterexample to claim C2: with `max_retries = 2`,
`initial_backoff_seconds = 5` and every attempt answering HTTP 401, the
call makes 2 attempts with backoff waits `[5, 10]` and ends with
`ConnectionError` — not an immediate authentication failure after one
attempt with no backoff wait. The `raise RequestException` for status
401/403 (download_history.py line 79) is caught by the function's own
`except requests.exceptions.RequestException` handler at line 84. -/
theorem auth_status_retried_cex :
    fetchRun 2 5 (fun _ => .failStatus 401) =
      ⟨.retriesExhausted, 2, [5, 10]⟩ ∧
    ¬ ((fetchRun 2 5 (fun _ => .failStatus 401)).attempts = 1 ∧
        (fetchRun 2 5 (fun _ => .failStatus 401)).waits = []) := by
  have h : fetchRun 2 5 (fun _ => .failStatus 401) =
      ⟨.retriesExhausted, 2, [5, 10]⟩ := by
    simp [fetchRun, fetchLoop]
  exact ⟨h, by simp [h]⟩

/-- Claim C2, amended: an attempt whose HTTP status is 401 or 403 raises an
authentication `RequestException` that the fetcher's own handler catches, so
it is retried with the same exponential backoff as transient failures; when
every attempt answers 401 (or 403), the call makes `max_retries` attempts
and then fails with `ConnectionError` (retries exhausted) rather than a
distinct immediate authentication error. -/
theorem auth_status_retried (retries backoff : Nat) :
    fetchRun retries backoff (fun _ => .failStatus 401) =
      ⟨.retriesExhausted, retries,
        (List.range retries).map (fun i => backoff * 2 ^ i)⟩ ∧
    fetchRun retries backoff (fun _ => .failStatus 403) =
      ⟨.retriesExhausted, retries,
        (List.range retries).map (fun i => backoff * 2 ^ i)⟩ := by
  constructor
  · have := fetchLoop_nonreturning retries backoff (fun _ => .failStatus 401)
      (retries - 0) 0 rfl (fun j _ _ => ⟨by simp, by simp⟩)
    simpa [fetchRun, List.range_eq_range'] using this
  · have := fetchLoop_nonreturning retries backoff (fun _ => .failStatus 403)
      (retries - 0) 0 rfl (fun j _ _ => ⟨by simp, by simp⟩)
    simpa [fetchRun, List.range_eq_range'] using this

/-! ### The sync planner -/

/-- Claim C7: when the live total count is at most the local total count
(`new_items_count <= 0`), `_run_sync` is a no-op: it returns the non-error
"already up to date" outcome with no page write and no state write, leaving
page documents and sync state unchanged. -/
theorem sync_uptodate_noop (localCount : Nat) (d : PageDoc) (stop : Nat → Bool)
    (fetch : Nat → FetchR) (h : d.total_count ≤ localCount) :
    runSync localCount (.ok d) stop fetch = ⟨.upToDate, [], []⟩ := by
  simp [runSync, h]

/-- Witness for C7: live count 5 equals local count 5. -/
theorem sync_uptodate_noop_witness :
    runSync 5 (.ok ⟨5, "x"⟩) (fun _ => false) (fun _ => .connExn) =
      ⟨.upToDate, [], []⟩ :=
  sync_uptodate_noop 5 ⟨5, "x"⟩ (fun _ => false) (fun _ => .connExn)
    (by norm_num)

/-- Counterexample to claim C4: a Sync run that writes one page performs no
state-file write at all, so the sync state is not mutated after every
successfully written page. `_run_sync` (download_history.py lines 139-177)
contains no write to `state.json`. -/
theorem sync_no_state_write_cex :
    (runSync 0 (.ok ⟨50, "h"⟩) (fun _ => false)
      (fun _ => .ok ⟨50, "h"⟩)).pages = [(0, ⟨50, "h"⟩)] ∧
    (runSync 0 (.ok ⟨50, "h"⟩) (fun _ => false)
      (fun _ => .ok ⟨50, "h"⟩)).states = [] := by
  constructor <;> simp [runSync, syncLoop]

/-- Every state-file write of the full-download loop other than the final
"complete" one records exactly one successfully written page's progress:
stripping the `initial_download_complete=true` write, the state writes are
`(offset + 100, false)` for the written pages' offsets, in order. -/
theorem fullLoop_states_track_pages (total : Nat) (stop : Nat → Bool)
    (fetch : Nat → FetchR) (start : Nat) :
    (fullLoop total stop fetch start).states.filter (fun p => !p.2) =
      (fullLoop total stop fetch start).pages.map (fun pg => (pg.1 + 100, false)) := by
  induction start using fullLoop.induct total stop fetch with
  | case1 start hlt hstop => rw [fullLoop, dif_pos hlt]; simp [hstop]
  | case2 start hlt hstop hf => rw [fullLoop, dif_pos hlt]; simp [hstop, hf]
  | case3 start hlt hstop hf => rw [fullLoop, dif_pos hlt]; simp [hstop, hf]
  | case4 start hlt hstop d hf ih =>
    rw [fullLoop, dif_pos hlt]
    simp only [Bool.not_eq_true', hstop, if_false, hf]
    simpa using ih
  | case5 start hlt => rw [fullLoop, dif_neg hlt]; simp

/-- In the sync loop no state-file write ever happens. -/
theorem syncLoop_no_states (pagesToSync : Nat) (stop : Nat → Bool)
    (fetch : Nat → FetchR) (i : Nat) :
    (syncLoop pagesToSync stop fetch i).states = [] := by
  induction i using syncLoop.induct pagesToSync stop fetch with
  | case1 i hlt hstop => rw [syncLoop, if_pos hlt]; simp [hstop]
  | case2 i hlt hstop hf => rw [syncLoop, if_pos hlt]; simp [hstop, hf]
  | case3 i hlt hstop hf => rw [syncLoop, if_pos hlt]; simp [hstop, hf]
  | case4 i hlt hstop d hf ih =>
    rw [syncLoop, if_pos hlt]
    simp only [Bool.not_eq_true', hstop, if_false, hf]
    simpa using ih
  | case5 i hlt => rw [syncLoop, if_neg hlt]

/-- Claim C4, amended: in FullDownload mode every successfully written page
is followed by a state write recording the new resume offset
(`offset + 100`, complete flag false); in Sync mode pages are written
without any state write — `_run_sync` never mutates the persisted sync
state. -/
theorem state_mutation_per_page (probe : FetchR) (readStart : Option Nat)
    (stop : Nat → Bool) (fetch : Nat → FetchR) (localCount : Nat)
    (probe2 : FetchR) (stop2 : Nat → Bool) (fetch2 : Nat → FetchR) :
    (runFull probe readStart stop fetch).states.filter (fun p => !p.2) =
      (runFull probe readStart stop fetch).pages.map
        (fun pg => (pg.1 + 100, false)) ∧
    (runSync localCount probe2 stop2 fetch2).states = [] := by
  constructor
  · rcases probe with d | _ | _
    · by_cases h0 : d.total_count = 0
      · simp [runFull, h0]
      · simp only [runFull, h0, if_false]
        exact fullLoop_states_track_pages _ _ _ _
    · simp [runFull]
    · simp [runFull]
  · rcases probe2 with d | _ | _
    · by_cases h0 : d.total_count ≤ localCount
      · simp [runSync, h0]
      · simp only [runSync, h0, if_false]
        exact syncLoop_no_states _ _ _ _
    · simp [runSync]
    · simp [runSync]

/-- When the full-download loop exits naturally, its last state write is
`(start_final, complete := true)` with `start_final ≥ total_count`. -/
theorem fullLoop_done_last_state (total : Nat) (stop : Nat → Bool)
    (fetch : Nat → FetchR) (start : Nat) :
    (fullLoop total stop fetch start).outcome = .done →
      ∃ off, (fullLoop total stop fetch start).states.getLast? =
        some (off, true) ∧ total ≤ off := by
  induction start using fullLoop.induct total stop fetch with
  | case1 start hlt hstop => rw [fullLoop, dif_pos hlt]; simp [hstop]
  | case2 start hlt hstop hf => rw [fullLoop, dif_pos hlt]; simp [hstop, hf]
  | case3 start hlt hstop hf => rw [fullLoop, dif_pos hlt]; simp [hstop, hf]
  | case4 start hlt hstop d hf ih =>
    rw [fullLoop, dif_pos hlt]
    simp only [Bool.not_eq_true', hstop, if_false, hf]
    intro hdone
    rcases ih hdone with ⟨off, hlast, hoff⟩
    refine ⟨off, ?_, hoff⟩
    have hne : (fullLoop total stop fetch (start + 100)).states ≠ [] := by
      intro hnil
      rw [hnil] at hlast
      simp at hlast
    rcases hcons : (fullLoop total stop fetch (start + 100)).states with _ | ⟨p, rest⟩
    · exact absurd hcons hne
    · rw [hcons] at hlast
      simpa [hcons] using hlast
  | case5 start hlt => rw [fullLoop, dif_neg hlt]; exact fun _ => ⟨start, by simp, by omega⟩

/-- When the full-download loop is interrupted (cancellation `break` or a
raising fetch), every state write it performed has the complete flag false. -/
theorem fullLoop_interrupted_states (total : Nat) (stop : Nat → Bool)
    (fetch : Nat → FetchR) (start : Nat) :
    (fullLoop total stop fetch start).outcome ≠ .done →
      ∀ p ∈ (fullLoop total stop fetch start).states, p.2 = false := by
  induction start using fullLoop.induct total stop fetch with
  | case1 start hlt hstop => rw [fullLoop, dif_pos hlt]; simp [hstop]
  | case2 start hlt hstop hf => rw [fullLoop, dif_pos hlt]; simp [hstop, hf]
  | case3 start hlt hstop hf => rw [fullLoop, dif_pos hlt]; simp [hstop, hf]
  | case4 start hlt hstop d hf ih =>
    rw [fullLoop, dif_pos hlt]
    simp only [Bool.not_eq_true', hstop, if_false, hf]
    intro hnd p hp
    rcases List.mem_cons.mp hp with rfl | hp'
    · rfl
    · exact ih hnd p hp'
  | case5 start hlt => rw [fullLoop, dif_neg hlt]; simp

/-- Counterexample to claim C3: a FullDownload run whose probe reports
`total_count = 0` returns early (download_history.py lines 97-99) without
writing the state file at all, so no persisted state with
`initial_download_complete=true` exists — contradicting the claim's
"including the case total_count = 0". -/
theorem full_download_completion_cex :
    (runFull (.ok ⟨0, "x"⟩) none (fun _ => false) (fun _ => .connExn)).states
      = [] ∧
    ¬ ∃ p ∈ (runFull (.ok ⟨0, "x"⟩) none (fun _ => false)
      (fun _ => .connExn)).states, p.2 = true := by
  constructor
  · rfl
  · simp [runFull]

/-- Claim C3, amended: for every FullDownload run and resume offset, if the
run ends with the loop exiting on `offset >= total_count` (outcome `done`)
then the last persisted sync state has `initial_download_complete=true` at
an offset at least `total_count`; if the run is interrupted by cancellation
or an unrecoverable fetch failure (outcome not `done`), every state write
has the flag false, so `initial_download_complete` remains false; but when
`total_count = 0` the function returns early without persisting any state
(the flag is not set to true, unlike the original claim). -/
theorem full_download_completion (probe : FetchR) (readStart : Option Nat)
    (stop : Nat → Bool) (fetch : Nat → FetchR) :
    ((runFull probe readStart stop fetch).outcome = .done →
      ∃ off, (runFull probe readStart stop fetch).states.getLast? =
        some (off, true) ∧
        ∀ d, probe = .ok d → d.total_count ≤ off) ∧
    ((runFull probe readStart stop fetch).outcome ≠ .done →
      ∀ p ∈ (runFull probe readStart stop fetch).states, p.2 = false) ∧
    (∀ d, probe = .ok d → d.total_count = 0 →
      (runFull probe readStart stop fetch).states = []) := by
  rcases probe with d | _ | _
  · by_cases h0 : d.total_count = 0
    · refine ⟨?_, ?_, ?_⟩ <;> simp [runFull, h0]
    · simp only [runFull, h0, if_false]
      refine ⟨?_, fullLoop_interrupted_states _ _ _ _, by simp [h0]⟩
      intro hdone
      rcases fullLoop_done_last_state d.total_count stop fetch
        (readStart.getD 0) hdone with ⟨off, hlast, hoff⟩
      exact ⟨off, hlast, by rintro d' ⟨rfl⟩; exact hoff⟩
  · exact ⟨by simp [runFull], by simp [runFull], by simp⟩
  · exact ⟨by simp [runFull], by simp [runFull], by simp⟩

/-- Witness for C3 (amended): a completed run over 250 items persists the
complete flag at offset 300 ≥ 250; an interrupted run (failing fetch) only
writes flag-false states; a zero-total run writes no state. -/
theorem full_download_completion_witness :
    (∃ off, (runFull (.ok ⟨250, "x"⟩) none (fun _ => false)
        (fun _ => .ok ⟨250, "x"⟩)).states.getLast? = some (off, true) ∧
        ∀ d, (FetchR.ok ⟨250, "x"⟩) = .ok d → d.total_count ≤ off) ∧
    (∀ p ∈ (runFull (.ok ⟨250, "x"⟩) none (fun _ => false)
        (fun o => if o = 0 then .ok ⟨250, "x"⟩ else .connExn)).states,
      p.2 = false) ∧
    (runFull (.ok ⟨0, "y"⟩) none (fun _ => false)
        (fun _ => .ok ⟨0, "y"⟩)).states = [] := by
  refine ⟨(full_download_completion (.ok ⟨250, "x"⟩) none (fun _ => false)
      (fun _ => .ok ⟨250, "x"⟩)).1 ?_,
    (full_download_completion (.ok ⟨250, "x"⟩) none (fun _ => false)
      (fun o => if o = 0 then .ok ⟨250, "x"⟩ else .connExn)).2.1 ?_,
    (full_download_completion (.ok ⟨0, "y"⟩) none (fun _ => false)
      (fun _ => .ok ⟨0, "y"⟩)).2.2 ⟨0, "y"⟩ rfl rfl⟩
  · simp [runFull, fullLoop]
  · simp [runFull, fullLoop]

/-! ### Year inference -/

/-- Counterexample to claim C1: the acted-on date text `"Sat\tMar"` has two
whitespace-separated tokens (so the `len(s.split()) < 2` guard does not
skip it) but contains no space character, so `s.split(' ')` has a single
element and `s.split(' ')[1]` raises `IndexError`. Such a row does not "get
no inferred year and leave lastMonth unchanged" — the whole pass aborts
(`_add_years_to_dates` has no handler), so the claim's unparseable-row
behavior is false at this input. -/
theorem year_forward_pass_cex :
    (pySplit "Sat\tMar").length = 2 ∧
    pass1Step ((2024 : Int), 13) "Sat\tMar" = .err ∧
    pass1 2024 ["Sat\tMar"] = .err := by
  refine ⟨by decide, by decide, by decide⟩

/-- Claim C1, amended: in the forward pass (newest-first, `currentYear`
starting at the present calendar year and `lastMonth` at 13), a row whose
parsed acted-on month `m` exceeds `lastMonth` decrements the year before
the assignment and the row gets the decremented year; a row whose acted-on
date text fails the guard (empty, `"N/A"`, fewer than two
whitespace-separated tokens) or whose month token is not in the table gets
no inferred year and leaves the state (`lastMonth` in particular)
unchanged; however a date text that passes the two-token guard while
containing no space character makes `split(' ')[1]` raise `IndexError`,
aborting the whole pass rather than skipping the row — and this raising
case occurs exactly then; months `[Mar, Jan, Dec, Nov]` with current year
`Y` yield inferred years `[Y, Y, Y-1, Y-1]`. -/
theorem year_forward_pass (Y : Int) (st : Int × Nat) (s : String) :
    (∀ m, actedMonthOf s = .ok (some m) →
      pass1Step st s =
        .ok ((if st.2 < m then st.1 - 1 else st.1, m),
          some (if st.2 < m then st.1 - 1 else st.1))) ∧
    (actedMonthOf s = .ok none → pass1Step st s = .ok (st, none)) ∧
    (actedMonthOf s = .err → ∀ rest, pass1Go st (s :: rest) = .err) ∧
    (actedMonthOf s = .err ↔
      ¬ (s = "" ∨ s = "N/A" ∨ (pySplit s).length < 2) ∧
        (pySplitSpace s).get? 1 = none) ∧
    pass1 Y ["Sat Mar 15", "Thu Jan 2", "Wed Dec 31", "Mon Nov 24"] =
      .ok [some Y, some Y, some (Y - 1), some (Y - 1)] := by
  refine ⟨?_, ?_, ?_, ?_, rfl⟩
  · intro m h
    simp [pass1Step, h]
  · intro h
    simp [pass1Step, h]
  · intro h rest
    rw [pass1Go]
    simp [pass1Step, h]
  · by_cases hg : s = "" ∨ s = "N/A" ∨ (pySplit s).length < 2
    · rw [actedMonthOf, if_pos hg]
      simp [hg]
    · rw [actedMonthOf, if_neg hg]
      cases hsp : (pySplitSpace s).get? 1 with
      | none => simp [hg, hsp]
      | some tok => simp [hg, hsp]

/-- Witness for C1 (amended): the first step on `"Sat Mar 15"` from
`(2024, 13)` assigns year 2024 and month 3; an `"N/A"` row leaves the state
unchanged; a pass reaching `"Sat\tMar"` aborts; the four-row example gives
`[2024, 2024, 2023, 2023]`. -/
theorem year_forward_pass_witness :
    pass1Step (2024, 13) "Sat Mar 15" = .ok ((2024, 3), some 2024) ∧
    pass1Step (2024, 3) "N/A" = .ok ((2024, 3), none) ∧
    pass1Go ((2024 : Int), 13) ["Sat\tMar"] = .err ∧
    pass1 2024 ["Sat Mar 15", "Thu Jan 2", "Wed Dec 31", "Mon Nov 24"] =
      .ok [some 2024, some 2024, some 2023, some 2023] := by
  refine ⟨?_, ?_, ?_, ?_⟩
  · have h := (year_forward_pass 2024 ((2024 : Int), 13) "Sat Mar 15").1 3
      (by decide)
    simpa using h
  · exact (year_forward_pass 2024 ((2024 : Int), 3) "N/A").2.1 (by decide)
  · exact (year_forward_pass 2024 ((2024 : Int), 13) "Sat\tMar").2.2.1
      (by decide) []
  · have h := (year_forward_pass 2024 ((2024 : Int), 13) "x").2.2.2.2
    simpa using h

/-- The listed-on month token of `s` parses in the sense of the second-pass
code path: `s` is not the `"N/A"` fallback, has at least two
whitespace-separated tokens, and `month_map.get(s.split(' ')[1])` yields
month `lm`. -/
def ListedMonthParses (s : String) (lm : Nat) : Prop :=
  s ≠ "N/A" ∧ 1 < (pySplit s).length ∧
    ∃ t, (pySplitSpace s).get? 1 = some t ∧ monthMap t = some lm

/-- Claim C6: in the second pass, a row with resolved acted-on year `y`
whose acted-on month `am` and listed-on month `lm` both parse gets
`"<acted>, y"` as sold date and `"<listed>, ly"` as listed date where
`ly = y - 1` exactly when `lm > am`, else `ly = y`; a row with no resolved
acted-on year keeps both output date fields as the raw original text. -/
theorem year_second_pass (r : RawTransactionRow) (y : Int) (am lm : Nat)
    (ha : actedMonthOf r.actedOnDate = .ok (some am))
    (hl : ListedMonthParses r.listedOnDate lm) :
    pass2Row r (some y) =
      .ok ⟨r.actedOnDate ++ ", " ++ toString y,
        r.listedOnDate ++ ", " ++ toString (if am < lm then y - 1 else y),
        r.itemName, r.type, r.price⟩ ∧
    ∀ r2 : RawTransactionRow, pass2Row r2 none =
      .ok ⟨r2.actedOnDate, r2.listedOnDate, r2.itemName, r2.type, r2.price⟩ := by
  constructor
  · have hguard : ¬ (r.actedOnDate = "" ∨ r.actedOnDate = "N/A" ∨
        (pySplit r.actedOnDate).length < 2) := by
      intro hg
      rw [actedMonthOf, if_pos hg] at ha
      exact absurd ha (by simp)
    rcases hta : (pySplitSpace r.actedOnDate).get? 1 with _ | ta
    · rw [actedMonthOf, if_neg hguard, hta] at ha
      exact absurd ha (by simp)
    · rw [actedMonthOf, if_neg hguard, hta] at ha
      have hmam : monthMap ta = some am := Crash.ok.inj ha
      rcases hl with ⟨hna, hlen, tl, htl, hml⟩
      have halen : 1 < (pySplit r.actedOnDate).length := by omega
      rw [pass2Row, if_pos ⟨hna, halen, hlen⟩]
      simp only [hta, htl, hmam, hml]
  · intro r2
    rfl

/-- Witness for C6: acted `"Sat Jan 2"` (Jan), listed `"Wed Dec 31"` (Dec),
year 2024: Dec > Jan, so the listed year is 2023; and a row with no
resolved year keeps its raw dates. -/
theorem year_second_pass_witness :
    pass2Row ⟨"Sat Jan 2", "Wed Dec 31", "knife", "Sale", 1⟩ (some 2024) =
      .ok ⟨"Sat Jan 2, 2024", "Wed Dec 31, 2023", "knife", "Sale", 1⟩ ∧
    pass2Row ⟨"gone", "gone2", "case", "Purchase", 2⟩ none =
      .ok ⟨"gone", "gone2", "case", "Purchase", 2⟩ := by
  have h := year_second_pass ⟨"Sat Jan 2", "Wed Dec 31", "knife", "Sale", 1⟩
    2024 1 12 (by decide) ⟨by decide, by decide, "Dec", by decide, by decide⟩
  exact ⟨by simpa using h.1, h.2 ⟨"gone", "gone2", "case", "Purchase", 2⟩⟩

/-- The maintained year of the forward pass never increases: the state's
year followed by the inferred years (kept rows only) is non-increasing. -/
theorem pass1Go_chain (dates : List String) :
    ∀ (st : Int × Nat) (ys : List (Option Int)), pass1Go st dates = .ok ys →
      List.Chain' (fun a b => b ≤ a) (st.1 :: ys.filterMap id) := by
  induction dates with
  | nil =>
    intro st ys h
    cases h
    simp
  | cons s rest ih =>
    intro st ys h
    rw [pass1Go] at h
    cases hstep : pass1Step st s with
    | err =>
      rw [hstep] at h
      exact absurd h (by simp)
    | ok p =>
      obtain ⟨st', yo⟩ := p
      rw [hstep] at h
      dsimp only at h
      cases hrec : pass1Go st' rest with
      | err =>
        rw [hrec] at h
        exact absurd h (by simp)
      | ok ys' =>
        rw [hrec] at h
        dsimp only at h
        cases h
        rw [pass1Step] at hstep
        cases hm : actedMonthOf s with
        | err =>
          rw [hm] at hstep
          exact absurd hstep (by simp)
        | ok mo =>
          rw [hm] at hstep
          rcases mo with _ | m
          · cases hstep
            simpa using ih _ _ hrec
          · dsimp only at hstep
            cases hstep
            simp only [List.filterMap_cons, id]
            rw [List.chain'_cons]
            refine ⟨?_, ?_⟩
            · split <;> omega
            · simpa using ih _ _ hrec

/-- Claim C10: over any input row sequence the inferred acted-on years (of
the rows that receive one) form a non-increasing sequence in row order, and
every inferred year is at most the current calendar year. -/
theorem year_inference_invariant (Y : Int) (dates : List String)
    (ys : List (Option Int)) (h : pass1 Y dates = .ok ys) :
    List.Chain' (fun a b => b ≤ a) (ys.filterMap id) ∧
    ∀ y ∈ ys.filterMap id, y ≤ Y := by
  have hc := pass1Go_chain dates (Y, 13) ys h
  refine ⟨hc.tail, ?_⟩
  have hp := List.chain'_iff_pairwise.mp hc
  exact (List.pairwise_cons.mp hp).1

/-- Witness for C10 on the four-row example: `[2024, 2024, 2023, 2023]` is
non-increasing and bounded by the current year 2024. -/
theorem year_inference_invariant_witness :
    List.Chain' (fun a b => b ≤ a)
      ([some (2024 : Int), some 2024, some 2023, some 2023].filterMap id) ∧
    ∀ y ∈ [some (2024 : Int), some 2024, some 2023, some 2023].filterMap id,
      y ≤ 2024 :=
  year_inference_invariant 2024
    ["Sat Mar 15", "Thu Jan 2", "Wed Dec 31", "Mon Nov 24"] _ rfl

/-! ### The HTML transaction parser -/

/-- Claim C8: the row extractor is total (every found row yields an output
row, nothing raises) and missing fields degrade to explicit fallbacks: no
directional-marker element gives type `"Sale"`, no price element — or a
price whose cleaned string does not parse — gives price `0.0`, and a
missing first or second listing-date element gives `"N/A"` for the
corresponding date field. -/
theorem html_parse_defaults (rows : List HtmlRow) (r : HtmlRow) :
    (parseRows rows).length = rows.length ∧
    (r.gainLossText = none → (parseRow r).type = "Sale") ∧
    (r.priceText = none → (parseRow r).price = 0) ∧
    (∀ t, r.priceText = some t →
      parsePyFloat (cleanPrice (pyStrip t)) = none → (parseRow r).price = 0) ∧
    (r.dateTexts.get? 0 = none → (parseRow r).actedOnDate = "N/A") ∧
    (r.dateTexts.get? 1 = none → (parseRow r).listedOnDate = "N/A") := by
  refine ⟨by simp [parseRows], ?_, ?_, ?_, ?_, ?_⟩
  · intro h
    simp [parseRow, h]
  · intro h
    have h1 : cleanPrice "0.0" = ['0', '.', '0'] := by decide
    have hval : parsePyFloat (cleanPrice "0.0") = some 0 := by
      rw [h1, parsePyFloat, if_pos (by decide)]
      rw [show ['0', '.', '0'].takeWhile (fun c => c ≠ '.') = ['0'] from
          by decide,
        show (['0', '.', '0'].dropWhile (fun c => c ≠ '.')).drop 1 = ['0'] from
          by decide,
        show digitsVal ['0'] = 0 from by decide]
      norm_num
    simp [parseRow, h, hval]
  · intro t ht hp
    simp [parseRow, ht, hp]
  · intro h
    rw [List.get?_eq_getElem?] at h
    simp [parseRow, h]
  · intro h
    rw [List.get?_eq_getElem?] at h
    simp [parseRow, h]

/-- Witness for C8: a row with no marker, no item name, price text
`"free"` (cleans to the unparseable empty string) and no date elements
yields type `"Sale"`, price `0.0` and `"N/A"` dates; a one-row list yields
one output row. -/
theorem html_parse_defaults_witness :
    (parseRows [⟨none, none, some "free", []⟩]).length = 1 ∧
    (parseRow ⟨none, none, some "free", []⟩).type = "Sale" ∧
    (parseRow ⟨none, none, some "free", []⟩).price = 0 ∧
    (parseRow ⟨none, none, some "free", []⟩).actedOnDate = "N/A" ∧
    (parseRow ⟨none, none, some "free", []⟩).listedOnDate = "N/A" := by
  have h := html_parse_defaults [⟨none, none, some "free", []⟩]
    ⟨none, none, some "free", []⟩
  exact ⟨h.1, h.2.1 rfl, h.2.2.2.1 "free" rfl (by decide), h.2.2.2.2.1 rfl,
    h.2.2.2.2.2 rfl⟩

/-! ### Page filename ordering -/

theorem digitsFuel_eq_digits (fuel : Nat) :
    ∀ n, n ≤ fuel → digitsFuel fuel n = Nat.digits 10 n := by
  induction fuel with
  | zero =>
    intro n hn
    have : n = 0 := by omega
    simp [this, digitsFuel]
  | succ f ih =>
    intro n hn
    by_cases hz : n = 0
    · simp [hz, digitsFuel]
    · rw [digitsFuel, if_neg hz,
        Nat.digits_def' (by norm_num : (1 : ℕ) < 10) (Nat.pos_of_ne_zero hz),
        ih (n / 10) ?_]
      have := Nat.div_lt_self (Nat.pos_of_ne_zero hz) (by norm_num : 1 < 10)
      omega

theorem decDigitsLSB_eq_digits (n : Nat) : decDigitsLSB n = Nat.digits 10 n :=
  digitsFuel_eq_digits n n le_rfl

theorem decDigitsMSB_lt_ten (n : Nat) : ∀ d ∈ decDigitsMSB n, d < 10 := by
  intro d hd
  rw [decDigitsMSB] at hd
  by_cases hz : n = 0
  · rw [if_pos hz] at hd
    simp at hd
    omega
  · rw [if_neg hz, decDigitsLSB_eq_digits, List.mem_reverse] at hd
    exact Nat.digits_lt_base (by norm_num) hd

theorem decDigitsMSB_length_le (n : Nat) (h : n < 10 ^ 6) :
    (decDigitsMSB n).length ≤ 6 := by
  rw [decDigitsMSB]
  by_cases hz : n = 0
  · simp [hz]
  · rw [if_neg hz, List.length_reverse, decDigitsLSB_eq_digits]
    by_contra hlen
    have h1 := Nat.base_pow_length_digits_le 10 n (by norm_num) hz
    have h2 : 10 ^ 7 ≤ 10 ^ (Nat.digits 10 n).length := by
      exact Nat.pow_le_pow_right (by norm_num) (by omega)
    omega

/-- Value denoted by a most-significant-first decimal digit list. -/
def decValue (l : List Nat) : Nat :=
  l.foldl (fun a d => 10 * a + d) 0

theorem decValue_foldl_acc (l : List Nat) (a : Nat) :
    l.foldl (fun x d => 10 * x + d) a = a * 10 ^ l.length + decValue l := by
  induction l generalizing a with
  | nil => simp [decValue]
  | cons d t ih =>
    rw [List.foldl_cons, ih (10 * a + d)]
    rw [show decValue (d :: t) = List.foldl (fun x e => 10 * x + e) (10 * 0 + d) t
      from rfl, ih (10 * 0 + d)]
    simp only [List.length_cons]
    ring

theorem decValue_cons (d : Nat) (l : List Nat) :
    decValue (d :: l) = d * 10 ^ l.length + decValue l := by
  rw [show decValue (d :: l) = List.foldl (fun x e => 10 * x + e) (10 * 0 + d) l
    from rfl, decValue_foldl_acc]
  ring_nf

theorem decValue_reverse_ofDigits (l : List Nat) :
    decValue l.reverse = Nat.ofDigits 10 l := by
  induction l with
  | nil => simp [decValue]
  | cons d t ih =>
    rw [List.reverse_cons, decValue, List.foldl_append, Nat.ofDigits_cons]
    rw [show List.foldl (fun x e => 10 * x + e) 0 t.reverse = decValue t.reverse
      from rfl, ih]
    simp
    ring

theorem decValue_decDigitsMSB (n : Nat) : decValue (decDigitsMSB n) = n := by
  rw [decDigitsMSB]
  by_cases hz : n = 0
  · simp [hz, decValue]
  · rw [if_neg hz, decDigitsLSB_eq_digits, decValue_reverse_ofDigits,
      Nat.ofDigits_digits]

theorem decValue_replicate_zero (k : Nat) (l : List Nat) :
    decValue (List.replicate k 0 ++ l) = decValue l := by
  induction k with
  | zero => simp
  | succ j ih =>
    rw [List.replicate_succ, List.cons_append, decValue]
    simpa [decValue] using ih

theorem decValue_lt_pow (l : List Nat) (h : ∀ d ∈ l, d < 10) :
    decValue l < 10 ^ l.length := by
  induction l with
  | nil => simp [decValue]
  | cons d t ih =>
    have hd : d < 10 := h d (by simp)
    have ht := ih (fun x hx => h x (by simp [hx]))
    rw [decValue_cons]
    calc d * 10 ^ t.length + decValue t < d * 10 ^ t.length + 10 ^ t.length := by
          omega
      _ = (d + 1) * 10 ^ t.length := by ring
      _ ≤ 10 * 10 ^ t.length := by
          exact Nat.mul_le_mul_right _ (by omega)
      _ = 10 ^ (d :: t).length := by
          rw [List.length_cons]
          ring

theorem lex_cons_iff_rel {α : Type} {r : α → α → Prop} {a b : α}
    {l1 l2 : List α} :
    List.Lex r (a :: l1) (b :: l2) ↔ r a b ∨ (a = b ∧ List.Lex r l1 l2) := by
  constructor
  · intro h
    cases h with
    | rel h => exact Or.inl h
    | cons h => exact Or.inr ⟨rfl, h⟩
  · rintro (h | ⟨rfl, h⟩)
    · exact List.Lex.rel h
    · exact List.Lex.cons h

theorem digit_block_lt_iff (d e vd ve B : Nat) (hvd : vd < B) (hve : ve < B) :
    d * B + vd < e * B + ve ↔ (d < e ∨ (d = e ∧ vd < ve)) := by
  constructor
  · intro h
    rcases Nat.lt_trichotomy d e with hlt | heq | hgt
    · exact Or.inl hlt
    · exact Or.inr ⟨heq, by subst heq; omega⟩
    · exfalso
      have : e * B + ve < d * B + vd := calc
        e * B + ve < e * B + B := by omega
        _ = (e + 1) * B := by ring
        _ ≤ d * B := Nat.mul_le_mul_right _ (by omega)
        _ ≤ d * B + vd := by omega
      omega
  · rintro (hlt | ⟨rfl, hv⟩)
    · calc d * B + vd < d * B + B := by omega
        _ = (d + 1) * B := by ring
        _ ≤ e * B := Nat.mul_le_mul_right _ (by omega)
        _ ≤ e * B + ve := by omega
    · omega

theorem lex_digits_iff : ∀ (ds es : List Nat), ds.length = es.length →
    (∀ d ∈ ds, d < 10) → (∀ d ∈ es, d < 10) →
    (List.Lex (· < ·) ds es ↔ decValue ds < decValue es) := by
  intro ds
  induction ds with
  | nil =>
    intro es hlen _ _
    have : es = [] := List.eq_nil_of_length_eq_zero hlen.symm
    subst this
    simp [List.Lex.not_nil_right, decValue]
  | cons d t ih =>
    intro es hlen hd he
    rcases es with _ | ⟨e, u⟩
    · simp at hlen
    · have hl : t.length = u.length := by simpa using hlen
      rw [lex_cons_iff_rel, decValue_cons, decValue_cons, hl,
        digit_block_lt_iff d e (decValue t) (decValue u) (10 ^ u.length)
          (hl ▸ decValue_lt_pow t (fun x hx => hd x (by simp [hx])))
          (decValue_lt_pow u (fun x hx => he x (by simp [hx]))),
        ih u hl (fun x hx => hd x (by simp [hx]))
          (fun x hx => he x (by simp [hx]))]

theorem digitChar_lt_iff (d e : Nat) (hd : d < 10) (he : e < 10) :
    (digitChar d < digitChar e ↔ d < e) := by
  interval_cases d <;> interval_cases e <;> decide

theorem digitChar_eq_iff (d e : Nat) (hd : d < 10) (he : e < 10) :
    (digitChar d = digitChar e ↔ d = e) := by
  interval_cases d <;> interval_cases e <;> decide

theorem lex_map_digitChar : ∀ (ds es : List Nat),
    (∀ d ∈ ds, d < 10) → (∀ d ∈ es, d < 10) →
    (List.Lex (· < ·) (ds.map digitChar) (es.map digitChar) ↔
      List.Lex (· < ·) ds es) := by
  intro ds
  induction ds with
  | nil =>
    intro es _ _
    rcases es with _ | ⟨e, u⟩
    · simp [List.Lex.not_nil_right]
    · simp only [List.map_nil, List.map_cons]
      exact iff_of_true List.Lex.nil List.Lex.nil
  | cons d t ih =>
    intro es hd he
    rcases es with _ | ⟨e, u⟩
    · simp only [List.map_cons, List.map_nil]
      exact iff_of_false (List.Lex.not_nil_right _ _)
        (List.Lex.not_nil_right _ _)
    · simp only [List.map_cons]
      rw [lex_cons_iff_rel, lex_cons_iff_rel,
        digitChar_lt_iff d e (hd d (by simp)) (he e (by simp)),
        digitChar_eq_iff d e (hd d (by simp)) (he e (by simp)),
        ih u (fun x hx => hd x (by simp [hx])) (fun x hx => he x (by simp [hx]))]

theorem lex_self_false (s : List Char) : ¬ List.Lex (· < ·) s s := by
  induction s with
  | nil => exact fun h => by cases h
  | cons c t ih =>
    intro h
    rcases lex_cons_iff_rel.mp h with hlt | ⟨_, h'⟩
    · exact lt_irrefl c hlt
    · exact ih h'

theorem lex_append_left_iff (p l1 l2 : List Char) :
    List.Lex (· < ·) (p ++ l1) (p ++ l2) ↔ List.Lex (· < ·) l1 l2 := by
  induction p with
  | nil => exact Iff.rfl
  | cons c t ih =>
    simp only [List.cons_append]
    rw [List.Lex.cons_iff]
    exact ih

theorem lex_append_same_suffix : ∀ (ds es s : List Char), ds.length = es.length →
    (List.Lex (· < ·) (ds ++ s) (es ++ s) ↔
      (List.Lex (· < ·) ds es ∨ (ds = es ∧ List.Lex (· < ·) s s))) := by
  intro ds
  induction ds with
  | nil =>
    intro es s hlen
    have : es = [] := List.eq_nil_of_length_eq_zero hlen.symm
    subst this
    simp [List.Lex.not_nil_right]
  | cons d t ih =>
    intro es s hlen
    rcases es with _ | ⟨e, u⟩
    · simp at hlen
    · have hl : t.length = u.length := by simpa using hlen
      simp only [List.cons_append]
      rw [lex_cons_iff_rel, lex_cons_iff_rel, ih u s hl]
      simp only [List.cons.injEq]
      tauto

/-- The zero-padded digit block of `pageFilename n` as a digit list. -/
def paddedDigits (n : Nat) : List Nat :=
  List.replicate (6 - (decDigitsMSB n).length) 0 ++ decDigitsMSB n

theorem paddedDigits_lt_ten (n : Nat) : ∀ d ∈ paddedDigits n, d < 10 := by
  intro d hd
  rcases List.mem_append.mp hd with h | h
  · have := List.eq_of_mem_replicate h
    omega
  · exact decDigitsMSB_lt_ten n d h

theorem paddedDigits_length (n : Nat) (h : n < 10 ^ 6) :
    (paddedDigits n).length = 6 := by
  have := decDigitsMSB_length_le n h
  rw [paddedDigits, List.length_append, List.length_replicate]
  omega

theorem decValue_paddedDigits (n : Nat) : decValue (paddedDigits n) = n := by
  rw [paddedDigits, decValue_replicate_zero, decValue_decDigitsMSB]

theorem zfill_pyStrNat_data (n : Nat) :
    (zfill 6 (pyStrNat n)).data = (paddedDigits n).map digitChar := by
  rw [zfill, pyStrNat, paddedDigits]
  show List.replicate (6 - ((decDigitsMSB n).map digitChar).length) '0' ++
      (decDigitsMSB n).map digitChar = _
  rw [List.length_map, List.map_append, List.map_replicate,
    show digitChar 0 = '0' from by decide]

theorem pageFilename_data (n : Nat) :
    (pageFilename n).data =
      "transactions_".data ++
        ((paddedDigits n).map digitChar ++ ".json".data) := by
  rw [pageFilename, String.data_append, String.data_append,
    zfill_pyStrNat_data, List.append_assoc]

theorem string_lt_iff_lex (s t : String) :
    s < t ↔ List.Lex (· < ·) s.data t.data := by
  rw [String.lt_iff_toList_lt]
  exact Iff.rfl

theorem pageFilename_lt_iff (a b : Nat) (ha : a < 10 ^ 6) (hb : b < 10 ^ 6) :
    (pageFilename a < pageFilename b ↔ a < b) := by
  rw [string_lt_iff_lex, pageFilename_data, pageFilename_data,
    lex_append_left_iff,
    lex_append_same_suffix _ _ _ (by
      rw [List.length_map, List.length_map, paddedDigits_length a ha,
        paddedDigits_length b hb]),
    lex_map_digitChar _ _ (paddedDigits_lt_ten a) (paddedDigits_lt_ten b),
    lex_digits_iff _ _ (by rw [paddedDigits_length a ha, paddedDigits_length b hb])
      (paddedDigits_lt_ten a) (paddedDigits_lt_ten b),
    decValue_paddedDigits, decValue_paddedDigits]
  constructor
  · rintro (h | ⟨_, h⟩)
    · exact h
    · exact absurd h (lex_self_false _)
  · exact fun h => Or.inl h

/-- Counterexample to claim C9: the offsets 999900 and 1000000 (both
non-negative multiples of the page size 100) violate the equivalence —
`str(1000000).zfill(6)` is 7 characters long, so
`"transactions_1000000.json"` precedes `"transactions_999900.json"`
lexically although 999900 < 1000000 numerically. -/
theorem filename_order_cex :
    999900 % 100 = 0 ∧ 1000000 % 100 = 0 ∧ 999900 < 1000000 ∧
    ¬ pageFilename 999900 < pageFilename 1000000 := by
  refine ⟨by norm_num, by norm_num, by norm_num, ?_⟩
  rw [string_lt_iff_lex]
  decide

/-- Claim C9, amended: for page offsets that are non-negative multiples of
the page size 100 and fit in the fixed pad width (below 10^6), the page
filename is derived deterministically from the offset by zero-padding to
width 6, and numeric order coincides with lexical filename order; for
offsets of 10^6 and beyond `zfill(6)` no longer pads, and the coincidence
fails. -/
theorem filename_order (a b : Nat) (ha : a % 100 = 0) (hb : b % 100 = 0)
    (ha6 : a < 1000000) (hb6 : b < 1000000) :
    (a < b ↔ pageFilename a < pageFilename b) :=
  (pageFilename_lt_iff a b (by norm_num; omega) (by norm_num; omega)).symm

/-- Witness for C9 (amended): offsets 0 and 100. -/
theorem filename_order_witness :
    0 % 100 = 0 ∧ 100 % 100 = 0 ∧
    ((0 : Nat) < 100 ↔ pageFilename 0 < pageFilename 100) :=
  ⟨rfl, rfl, filename_order 0 100 rfl rfl (by norm_num) (by norm_num)⟩

end SteamTracker
